import Mathlib

/-!
Verification of the _froggi engine core

A shallow embedding of the frame scheduler, collision adapter, and render
pipeline of the `_froggi` game engine, with theorems checking the
natural-language specification against the code.

Conventions of the embedding:
* C++ `float` scalars are modelled as exact rationals (`ℚ`); properties
  claimed "modulo floating-point epsilon" hold exactly in this idealisation.
* The third-party physics engine (Jolt) and the entity store are external
  collaborators: their effect on rigidbody state during a fixed step is a
  parameter (`phys`, `upd`) of the frame function, as the spec prescribes.
* GPU passes are modelled by the pure functions their shaders compute plus
  records of the pass-descriptor fields set by the C++ code.
-/

namespace Froggi

/-- Model of `glm::vec3`: a 3-component vector over ℚ. -/
structure Vec3 where
  x : ℚ
  y : ℚ
  z : ℚ
  deriving DecidableEq, Repr

/-- Componentwise `glm::mix(a, b, t) = a + (b - a) * t`. -/
def Vec3.mix (a b : Vec3) (t : ℚ) : Vec3 :=
  ⟨a.x + (b.x - a.x) * t, a.y + (b.y - a.y) * t, a.z + (b.z - a.z) * t⟩

/-- Model of `glm::vec4` / WGSL `vec4f`: a 4-component vector over ℚ. -/
structure Vec4 where
  r : ℚ
  g : ℚ
  b : ℚ
  a : ℚ
  deriving DecidableEq, Repr

/-! ## Frame scheduler (Engine::run, collision_system.cpp:1077–1156)

Rigidbody state relevant to the interpolation loop: the enabled flag, the
kinematic flag, whether the component has an owner, the position of the owner GameObject, and the two shadow positions used solely for render
interpolation. -/

structure RigidbodyS where
  enabled : Bool
  isKinematic : Bool
  hasOwner : Bool
  ownerPosition : Vec3
  previousPosition : Vec3
  currentPosition : Vec3
  deriving DecidableEq, Repr

/-- The constant `fixedTimeStep = 1.0f / 60.0f` (pond_interface.h:370). -/
def fixedTimeStep : ℚ := 1 / 60

/-- Engine state threaded through the loop. `stepsTaken` is a ghost counter
of executions of the fixed-step loop body; it is not a C++ field and no
observable field depends on it. -/
structure EngineState where
  accumulator : ℚ
  rigidbodies : List RigidbodyS
  stepsTaken : ℕ

/-- The guard in `Engine::run`:
`if (deltaTime <= 0.0f) deltaTime = 1.0f / 60.0f;` -/
def effectiveDelta (dt : ℚ) : ℚ :=
  if dt ≤ 0 then 1 / 60 else dt

/-- Step a of the loop body (STORE PREVIOUS POSITIONS BEFORE PHYSICS UPDATE):
for every enabled,
owned, non-kinematic Rigidbody, `previousPosition = owner.position`. -/
def snapshotPrev (rbs : List RigidbodyS) : List RigidbodyS :=
  rbs.map fun rb =>
    if rb.enabled && rb.hasOwner && !rb.isKinematic then
      { rb with previousPosition := rb.ownerPosition }
    else rb

/-- Step d of the loop body (STORE CURRENT POSITIONS AFTER PHYSICS UPDATE):
for every enabled,
owned, non-kinematic Rigidbody, `currentPosition = owner.position`. -/
def snapshotCurr (rbs : List RigidbodyS) : List RigidbodyS :=
  rbs.map fun rb =>
    if rb.enabled && rb.hasOwner && !rb.isKinematic then
      { rb with currentPosition := rb.ownerPosition }
    else rb

/-- The INTERPOLATE VISUAL POSITIONS block: for every enabled, owned, non-kinematic
Rigidbody, `owner.position = glm::mix(previousPosition, currentPosition, alpha)`. -/
def interpolate (alpha : ℚ) (rbs : List RigidbodyS) : List RigidbodyS :=
  rbs.map fun rb =>
    if rb.enabled && rb.hasOwner && !rb.isKinematic then
      { rb with ownerPosition := Vec3.mix rb.previousPosition rb.currentPosition alpha }
    else rb

/-- One iteration of the fixed-step loop body: snapshot previous positions,
run `updateSceneFixed` + `collisionSystem->update` (the parameter `phys`),
snapshot current positions, then `accumulator -= fixedTimeStep`. -/
def fixedStepOnce (phys : List RigidbodyS → List RigidbodyS)
    (s : EngineState) : EngineState :=
  { accumulator := s.accumulator - fixedTimeStep
    rigidbodies := snapshotCurr (phys (snapshotPrev s.rigidbodies))
    stepsTaken := s.stepsTaken + 1 }

theorem ceil_measure_decreases {acc : ℚ} (h : fixedTimeStep ≤ acc) :
    (Int.ceil ((acc - fixedTimeStep) * 60)).toNat < (Int.ceil (acc * 60)).toNat := by
  have hrw : (acc - fixedTimeStep) * 60 = acc * 60 - 1 := by
    unfold fixedTimeStep; ring
  have hone : (1 : ℚ) ≤ acc * 60 := by
    unfold fixedTimeStep at h; linarith
  have hceil : (1 : ℤ) ≤ Int.ceil (acc * 60) := by
    have h2 := Int.ceil_le_ceil hone
    simpa using h2
  rw [hrw]
  have h3 : Int.ceil (acc * 60 - 1) = Int.ceil (acc * 60) - 1 :=
    Int.ceil_sub_one (acc * 60)
  rw [h3]
  omega

/-- The loop `while (accumulator >= fixedTimeStep)` of `Engine::run`. -/
def runFixedLoop (phys : List RigidbodyS → List RigidbodyS)
    (s : EngineState) : EngineState :=
  if h : fixedTimeStep ≤ s.accumulator then
    runFixedLoop phys (fixedStepOnce phys s)
  else s
termination_by (Int.ceil (s.accumulator * 60)).toNat
decreasing_by exact ceil_measure_decreases h

/-- One iteration of the outer while loop of `Engine::run`, from the delta-time
guard through the interpolation step.  `upd` abstracts game `onUpdate` plus
`updateScene`; `phys` abstracts `updateSceneFixed` plus the collision-system
update (both are external collaborators iterated by the scheduler). -/
def runFrame (upd phys : List RigidbodyS → List RigidbodyS)
    (s : EngineState) (dt : ℚ) : EngineState :=
  let dtE := effectiveDelta dt
  let s1 : EngineState :=
    { accumulator := s.accumulator + dtE
      rigidbodies := upd s.rigidbodies
      stepsTaken := s.stepsTaken }
  let s2 := runFixedLoop phys s1
  let alpha := s2.accumulator / fixedTimeStep
  { s2 with rigidbodies := interpolate alpha s2.rigidbodies }

/-- A sequence of frames with the given wall-clock deltas. -/
def runFrames (upd phys : List RigidbodyS → List RigidbodyS)
    (s : EngineState) (dts : List ℚ) : EngineState :=
  dts.foldl (runFrame upd phys) s

/-- Engine start-up state: `accumulator = 0.0f` (pond_interface.h:369). -/
def initialState (rbs : List RigidbodyS) : EngineState :=
  { accumulator := 0, rigidbodies := rbs, stepsTaken := 0 }

theorem fixedTimeStep_pos : 0 < fixedTimeStep := by
  unfold fixedTimeStep; norm_num

/-- Bookkeeping facts about the fixed-step loop: it runs some number `n` of
iterations, removes `n * fixedTimeStep` from the accumulator, exits with
`accumulator < fixedTimeStep`, and preserves non-negativity. -/
theorem runFixedLoop_spec (phys : List RigidbodyS → List RigidbodyS)
    (s : EngineState) :
    ∃ n : ℕ,
      (runFixedLoop phys s).stepsTaken = s.stepsTaken + n ∧
      (runFixedLoop phys s).accumulator = s.accumulator - n * fixedTimeStep ∧
      (runFixedLoop phys s).accumulator < fixedTimeStep ∧
      (0 ≤ s.accumulator → 0 ≤ (runFixedLoop phys s).accumulator) := by
  rw [runFixedLoop]
  split
  · rename_i hge
    obtain ⟨n, hsteps, hacc, hlt, hnn⟩ := runFixedLoop_spec phys (fixedStepOnce phys s)
    refine ⟨n + 1, ?_, ?_, hlt, ?_⟩
    · rw [hsteps]; simp [fixedStepOnce]; omega
    · rw [hacc]; simp [fixedStepOnce]; ring
    · intro _
      exact hnn (by simp [fixedStepOnce]; linarith)
  · rename_i hlt
    exact ⟨0, by simp, by simp, by linarith [not_le.mp hlt], fun h => h⟩
termination_by (Int.ceil (s.accumulator * 60)).toNat
decreasing_by exact ceil_measure_decreases (by assumption)

/-- The accumulator after a frame, as a recurrence, with its range. -/
theorem runFrame_acc_spec (upd phys : List RigidbodyS → List RigidbodyS)
    (s : EngineState) (dt : ℚ) (hnn : 0 ≤ s.accumulator) :
    ∃ n : ℕ,
      (runFrame upd phys s dt).stepsTaken = s.stepsTaken + n ∧
      (runFrame upd phys s dt).accumulator
        = s.accumulator + effectiveDelta dt - n * fixedTimeStep ∧
      0 ≤ (runFrame upd phys s dt).accumulator ∧
      (runFrame upd phys s dt).accumulator < fixedTimeStep := by
  unfold runFrame
  obtain ⟨n, hsteps, hacc, hlt, hpos⟩ := runFixedLoop_spec phys
    { accumulator := s.accumulator + effectiveDelta dt
      rigidbodies := upd s.rigidbodies
      stepsTaken := s.stepsTaken }
  have hdtE : 0 < effectiveDelta dt := by
    unfold effectiveDelta; split <;> [norm_num; linarith [not_le.mp (by assumption)]]
  exact ⟨n, by simpa using hsteps, by simpa using hacc,
    by simpa using hpos (by simp; linarith), by simpa using hlt⟩

/-- A rigidbody found after the interpolation step that is enabled, owned and
non-kinematic carries the interpolated owner position. -/
theorem interpolate_mem (alpha : ℚ) (l : List RigidbodyS) (rb : RigidbodyS)
    (hmem : rb ∈ interpolate alpha l) (he : rb.enabled = true)
    (ho : rb.hasOwner = true) (hk : rb.isKinematic = false) :
    rb.ownerPosition = Vec3.mix rb.previousPosition rb.currentPosition alpha := by
  unfold interpolate at hmem
  obtain ⟨a, _, hfa⟩ := List.mem_map.mp hmem
  split at hfa
  · subst hfa; rfl
  · subst hfa
    rename_i hq
    rw [he, ho, hk] at hq
    simp at hq

/-!
Claim C1 — render position is the interpolation of the fixed-step snapshots
-/

/-- C1: after the fixed-step loop of a frame exits, the interpolation
factor `alpha = accumulator / fixedTimeStep` lies in `[0, 1)`, and every
enabled, non-kinematic Rigidbody with an owner has the position of its owner set
to `lerp(previousPosition, currentPosition, alpha)` — the two shadow
positions snapshotted around the most recent fixed step — so at `alpha = 0`
the rendered position equals `previousPosition` and at `alpha = 1` it would
equal `currentPosition`; the rendered position is never an instantaneous
mid-step physics position. -/
theorem c1_render_interpolation (upd phys : List RigidbodyS → List RigidbodyS)
    (s : EngineState) (dt : ℚ) (hacc : 0 ≤ s.accumulator) :
    (0 ≤ (runFrame upd phys s dt).accumulator / fixedTimeStep ∧
      (runFrame upd phys s dt).accumulator / fixedTimeStep < 1) ∧
    (∀ rb ∈ (runFrame upd phys s dt).rigidbodies,
        rb.enabled = true → rb.hasOwner = true → rb.isKinematic = false →
        rb.ownerPosition = Vec3.mix rb.previousPosition rb.currentPosition
          ((runFrame upd phys s dt).accumulator / fixedTimeStep)) ∧
    (∀ p c : Vec3, Vec3.mix p c 0 = p ∧ Vec3.mix p c 1 = c) := by
  obtain ⟨n, _, _, hnn, hlt⟩ := runFrame_acc_spec upd phys s dt hacc
  refine ⟨⟨div_nonneg hnn (le_of_lt fixedTimeStep_pos),
    (div_lt_one fixedTimeStep_pos).mpr hlt⟩, ?_, ?_⟩
  · intro rb hmem he ho hk
    exact interpolate_mem _ _ rb hmem he ho hk
  · intro p c
    constructor
    · cases p; cases c; simp [Vec3.mix]
    · cases p; cases c
      simp only [Vec3.mix, Vec3.mk.injEq]
      refine ⟨by ring, by ring, by ring⟩

/-- Witness for C1: a concrete frame starting from the start-up
state of the engine with `dt = 1`. -/
theorem c1_render_interpolation_witness :
    (0 ≤ (runFrame id id (initialState []) 1).accumulator / fixedTimeStep ∧
      (runFrame id id (initialState []) 1).accumulator / fixedTimeStep < 1) ∧
    (∀ rb ∈ (runFrame id id (initialState []) 1).rigidbodies,
        rb.enabled = true → rb.hasOwner = true → rb.isKinematic = false →
        rb.ownerPosition = Vec3.mix rb.previousPosition rb.currentPosition
          ((runFrame id id (initialState []) 1).accumulator / fixedTimeStep)) ∧
    (∀ p c : Vec3, Vec3.mix p c 0 = p ∧ Vec3.mix p c 1 = c) :=
  c1_render_interpolation id id (initialState []) 1 (le_refl 0)

/-!
Claim C2 — exact step count when the deltas sum to a multiple of the step
-/

/-- Frame-sequence bookkeeping: starting inside `[0, fixedTimeStep)`, after
any sequence of positive deltas the accumulator equals the delta sum minus
the steps taken times the step, and stays inside `[0, fixedTimeStep)`. -/
theorem runFrames_spec (upd phys : List RigidbodyS → List RigidbodyS)
    (dts : List ℚ) :
    ∀ s : EngineState, 0 ≤ s.accumulator → s.accumulator < fixedTimeStep →
    (∀ dt ∈ dts, 0 < dt) →
    ∃ n : ℕ,
      (runFrames upd phys s dts).stepsTaken = s.stepsTaken + n ∧
      (runFrames upd phys s dts).accumulator
        = s.accumulator + dts.sum - n * fixedTimeStep ∧
      0 ≤ (runFrames upd phys s dts).accumulator ∧
      (runFrames upd phys s dts).accumulator < fixedTimeStep := by
  induction dts with
  | nil =>
    intro s h0 h1 _
    exact ⟨0, by simp [runFrames], by simp [runFrames], h0, h1⟩
  | cons dt rest ih =>
    intro s h0 h1 hpos
    obtain ⟨m, hst, hacc, hnn, hlt⟩ := runFrame_acc_spec upd phys s dt h0
    obtain ⟨n, hst2, hacc2, hnn2, hlt2⟩ := ih (runFrame upd phys s dt) hnn hlt
      (fun d hd => hpos d (List.mem_cons_of_mem _ hd))
    have hrw : runFrames upd phys s (dt :: rest)
        = runFrames upd phys (runFrame upd phys s dt) rest := rfl
    refine ⟨m + n, ?_, ?_, by rw [hrw]; exact hnn2, by rw [hrw]; exact hlt2⟩
    · rw [hrw, hst2, hst]; omega
    · rw [hrw, hacc2, hacc]
      have hdt : effectiveDelta dt = dt := by
        unfold effectiveDelta
        rw [if_neg (not_le.mpr (hpos dt (List.mem_cons_self _ _)))]
      rw [hdt, List.sum_cons]
      push_cast
      ring

/-- C2: for any sequence of frames whose per-frame positive deltas sum to
exactly `k * fixedTimeStep`, the fixed-step loop body executes exactly `k`
times in total across those frames and the accumulator returns exactly
to 0 (the floating-point epsilon of the spec vanishes in the exact-rational
model). -/
theorem c2_fixed_step_count (upd phys : List RigidbodyS → List RigidbodyS)
    (rbs : List RigidbodyS) (dts : List ℚ) (k : ℕ)
    (hpos : ∀ dt ∈ dts, 0 < dt)
    (hsum : dts.sum = k * fixedTimeStep) :
    (runFrames upd phys (initialState rbs) dts).stepsTaken = k ∧
    (runFrames upd phys (initialState rbs) dts).accumulator = 0 := by
  obtain ⟨n, hst, hacc, hnn, hlt⟩ := runFrames_spec upd phys dts
    (initialState rbs) (le_refl 0) fixedTimeStep_pos hpos
  rw [hsum] at hacc
  have hia : (initialState rbs).accumulator = 0 := rfl
  have his : (initialState rbs).stepsTaken = 0 := rfl
  rw [hia] at hacc
  rw [his] at hst
  have hstep : fixedTimeStep = 1 / 60 := rfl
  rw [hstep] at hacc hlt
  rw [zero_add] at hacc
  rw [Nat.zero_add] at hst
  rw [hacc] at hnn hlt
  have hk : (n : ℚ) ≤ (k : ℚ) := by linarith
  have hk2 : (k : ℚ) < (n : ℚ) + 1 := by linarith
  have hkn : k = n := by
    have h1 : n ≤ k := by exact_mod_cast hk
    have h2 : k < n + 1 := by exact_mod_cast hk2
    omega
  subst hkn
  refine ⟨hst, ?_⟩
  rw [hacc]
  ring

/-- Witness for C2: two frames of `dt = 1/120` sum to exactly one fixed
step; the loop body runs exactly once and the accumulator returns to 0. -/
theorem c2_fixed_step_count_witness :
    (runFrames id id (initialState []) [1 / 120, 1 / 120]).stepsTaken = 1 ∧
    (runFrames id id (initialState []) [1 / 120, 1 / 120]).accumulator = 0 :=
  c2_fixed_step_count id id [] [1 / 120, 1 / 120] 1
    (by intro dt hdt; simp at hdt; subst hdt; norm_num)
    (by simp [fixedTimeStep]; norm_num)

/-!
Claim C3 — non-positive wall-clock deltas fall back to 1/60
-/

/-- Frames driven by deltas with equal effective delta coincide. -/
theorem runFrame_congr (upd phys : List RigidbodyS → List RigidbodyS)
    (s : EngineState) (dt1 dt2 : ℚ)
    (h : effectiveDelta dt1 = effectiveDelta dt2) :
    runFrame upd phys s dt1 = runFrame upd phys s dt2 := by
  unfold runFrame
  rw [h]

/-- C3: whenever the computed wall-clock delta is `≤ 0`, the effective
delta used for the whole frame is the fallback `1/60` — the frame behaves
exactly as a frame with `dt = 1/60` — and the effective delta is never zero
or negative for any input. -/
theorem c3_delta_fallback (dt : ℚ) (hdt : dt ≤ 0) :
    effectiveDelta dt = 1 / 60 ∧
    (∀ d : ℚ, 0 < effectiveDelta d) ∧
    (∀ (upd phys : List RigidbodyS → List RigidbodyS) (s : EngineState),
      runFrame upd phys s dt = runFrame upd phys s (1 / 60)) := by
  have heq : effectiveDelta dt = 1 / 60 := by
    unfold effectiveDelta; rw [if_pos hdt]
  refine ⟨heq, ?_, ?_⟩
  · intro d
    unfold effectiveDelta
    split
    · norm_num
    · linarith [not_le.mp (by assumption)]
  · intro upd phys s
    apply runFrame_congr
    rw [heq]
    unfold effectiveDelta
    rw [if_neg (by norm_num)]

/-- Witness for C3 at the concrete stalled-clock delta `dt = 0`. -/
theorem c3_delta_fallback_witness :
    effectiveDelta 0 = 1 / 60 ∧
    (∀ d : ℚ, 0 < effectiveDelta d) ∧
    (∀ (upd phys : List RigidbodyS → List RigidbodyS) (s : EngineState),
      runFrame upd phys s 0 = runFrame upd phys s (1 / 60)) :=
  c3_delta_fallback 0 (le_refl 0)

/-! ## Collision layer filtering
(`enum CollisionLayer`, collision_system.h:50–59, and
`Collider::shouldCollideWith`, collision_system.cpp:148–156) -/

namespace CollisionLayer

def None : ℕ := 0

def Player : ℕ := 1 <<< 0

def Ground : ℕ := 1 <<< 1

def Wall : ℕ := 1 <<< 2

def Enemy : ℕ := 1 <<< 3

def Pickup : ℕ := 1 <<< 4

def Trigger : ℕ := 1 <<< 5

def All : ℕ := 0xFFFFFFFF

end CollisionLayer

/-- Collider fields that decide collision filtering; `collisionLayer` and
`collisionMask` are `uint32_t` bitmasks (modelled as ℕ, with the `< 2^32`
range carried as a hypothesis where it matters). -/
structure ColliderS where
  collisionLayer : ℕ
  collisionMask : ℕ
  isTrigger : Bool
  deriving DecidableEq, Repr

/-- Model of `Collider::shouldCollideWith`: a null `other` never collides; otherwise
the layer of each collider must intersect the mask of the other. -/
def shouldCollideWith (c : ColliderS) (other : Option ColliderS) : Bool :=
  match other with
  | Option.none => false
  | Option.some o =>
    let thisInOtherMask := c.collisionLayer &&& o.collisionMask != 0
    let otherInThisMask := o.collisionLayer &&& c.collisionMask != 0
    thisInOtherMask && otherInThisMask

/-- C4: `shouldCollideWith` returns true iff `(L1 & M2) != 0` and
`(L2 & M1) != 0`; the relation is symmetric; a collider with layer `None`
never collides; and a collider with mask `All` collides with any partner
whose (32-bit) layer is nonzero and whose mask intersects the layer of
the first. -/
theorem c4_layer_mask_filtering (a b : ColliderS)
    (hb : b.collisionLayer < 2 ^ 32) :
    (shouldCollideWith a (Option.some b) = true ↔
      (a.collisionLayer &&& b.collisionMask ≠ 0 ∧
       b.collisionLayer &&& a.collisionMask ≠ 0)) ∧
    shouldCollideWith a (Option.some b) = shouldCollideWith b (Option.some a) ∧
    (a.collisionLayer = CollisionLayer.None →
      shouldCollideWith a (Option.some b) = false) ∧
    (a.collisionMask = CollisionLayer.All → b.collisionLayer ≠ 0 →
      b.collisionMask &&& a.collisionLayer ≠ 0 →
      shouldCollideWith a (Option.some b) = true) := by
  refine ⟨?_, ?_, ?_, ?_⟩
  · simp [shouldCollideWith, Bool.and_eq_true, bne_iff_ne]
  · simp only [shouldCollideWith]
    rw [Bool.and_comm]
  · intro h0
    simp [shouldCollideWith, h0, CollisionLayer.None]
  · intro hAll hbl hbm
    simp only [shouldCollideWith, Bool.and_eq_true, bne_iff_ne]
    constructor
    · rw [Nat.land_comm]
      exact hbm
    · rw [hAll]
      have h32 : CollisionLayer.All = 2 ^ 32 - 1 := by
        unfold CollisionLayer.All; norm_num
      rw [h32, Nat.and_pow_two_sub_one_of_lt_two_pow hb]
      exact hbl

/-- Witness for C4: a `Player`-layer collider with mask `All` against a
`Ground`-layer collider with mask `All`. -/
theorem c4_layer_mask_filtering_witness :
    (shouldCollideWith ⟨CollisionLayer.Player, CollisionLayer.All, false⟩
        (Option.some ⟨CollisionLayer.Ground, CollisionLayer.All, false⟩) = true ↔
      (CollisionLayer.Player &&& CollisionLayer.All ≠ 0 ∧
       CollisionLayer.Ground &&& CollisionLayer.All ≠ 0)) ∧
    shouldCollideWith ⟨CollisionLayer.Player, CollisionLayer.All, false⟩
        (Option.some ⟨CollisionLayer.Ground, CollisionLayer.All, false⟩)
      = shouldCollideWith ⟨CollisionLayer.Ground, CollisionLayer.All, false⟩
        (Option.some ⟨CollisionLayer.Player, CollisionLayer.All, false⟩) ∧
    (CollisionLayer.Player = CollisionLayer.None →
      shouldCollideWith ⟨CollisionLayer.Player, CollisionLayer.All, false⟩
        (Option.some ⟨CollisionLayer.Ground, CollisionLayer.All, false⟩) = false) ∧
    (CollisionLayer.All = CollisionLayer.All → CollisionLayer.Ground ≠ 0 →
      CollisionLayer.All &&& CollisionLayer.Player ≠ 0 →
      shouldCollideWith ⟨CollisionLayer.Player, CollisionLayer.All, false⟩
        (Option.some ⟨CollisionLayer.Ground, CollisionLayer.All, false⟩) = true) :=
  c4_layer_mask_filtering
    ⟨CollisionLayer.Player, CollisionLayer.All, false⟩
    ⟨CollisionLayer.Ground, CollisionLayer.All, false⟩
    (by unfold CollisionLayer.Ground; decide)

/-! ## Motion-type derivation
(`CollisionSystem::createBody`, collision_system.cpp:529–547) -/

/-- The motion type `JPH::EMotionType`, as consumed by `createBody`. -/
inductive EMotionType where
  | Static
  | Kinematic
  | Dynamic
  deriving DecidableEq, Repr

/-- The motion-type chain in `createBody`: no Rigidbody ⇒ `Static`;
`rigidbody->isKinematic` ⇒ `Kinematic`; otherwise `Dynamic`. -/
def motionTypeFor (rigidbody : Option RigidbodyS) : EMotionType :=
  match rigidbody with
  | Option.none => EMotionType.Static
  | Option.some rb =>
    if rb.isKinematic then EMotionType.Kinematic else EMotionType.Dynamic

/-- C5: the motion type of the physics body is derived as: no sibling
Rigidbody ⇒ Static; a sibling Rigidbody with `isKinematic` ⇒ Kinematic; a
sibling Rigidbody without it ⇒ Dynamic — and the three cases are exhaustive
and mutually exclusive (each motion type characterises exactly one case). -/
theorem c5_motion_type_derivation :
    (motionTypeFor Option.none = EMotionType.Static) ∧
    (∀ rb : RigidbodyS, rb.isKinematic = true →
      motionTypeFor (Option.some rb) = EMotionType.Kinematic) ∧
    (∀ rb : RigidbodyS, rb.isKinematic = false →
      motionTypeFor (Option.some rb) = EMotionType.Dynamic) ∧
    (∀ orb : Option RigidbodyS,
      motionTypeFor orb = EMotionType.Static ∨
      motionTypeFor orb = EMotionType.Kinematic ∨
      motionTypeFor orb = EMotionType.Dynamic) ∧
    (∀ orb : Option RigidbodyS,
      (motionTypeFor orb = EMotionType.Static ↔ orb = Option.none) ∧
      (motionTypeFor orb = EMotionType.Kinematic ↔
        ∃ rb, orb = Option.some rb ∧ rb.isKinematic = true) ∧
      (motionTypeFor orb = EMotionType.Dynamic ↔
        ∃ rb, orb = Option.some rb ∧ rb.isKinematic = false)) := by
  refine ⟨rfl, ?_, ?_, ?_, ?_⟩
  · intro rb h
    simp [motionTypeFor, h]
  · intro rb h
    simp [motionTypeFor, h]
  · intro orb
    cases orb with
    | none => exact Or.inl rfl
    | some rb =>
      by_cases h : rb.isKinematic
      · exact Or.inr (Or.inl (by simp [motionTypeFor, h]))
      · exact Or.inr (Or.inr (by simp [motionTypeFor, h]))
  · intro orb
    cases orb with
    | none => simp [motionTypeFor]
    | some rb =>
      by_cases h : rb.isKinematic
      · simp [motionTypeFor, h]
      · simp [motionTypeFor, h]

/-- Witness for C5: the three concrete component configurations. -/
theorem c5_motion_type_derivation_witness :
    motionTypeFor Option.none = EMotionType.Static ∧
    motionTypeFor (Option.some ⟨true, true, true, ⟨0, 0, 0⟩, ⟨0, 0, 0⟩, ⟨0, 0, 0⟩⟩)
      = EMotionType.Kinematic ∧
    motionTypeFor (Option.some ⟨true, false, true, ⟨0, 0, 0⟩, ⟨0, 0, 0⟩, ⟨0, 0, 0⟩⟩)
      = EMotionType.Dynamic :=
  ⟨c5_motion_type_derivation.1,
    c5_motion_type_derivation.2.1 ⟨true, true, true, ⟨0, 0, 0⟩, ⟨0, 0, 0⟩, ⟨0, 0, 0⟩⟩ rfl,
    c5_motion_type_derivation.2.2.1 ⟨true, false, true, ⟨0, 0, 0⟩, ⟨0, 0, 0⟩, ⟨0, 0, 0⟩⟩ rfl⟩

/-! ## Render pipeline: per-object draw iteration
(`Renderer::renderSilhouettePass` part_005:187–242,
`Renderer::renderMainPass` part_005:244–296) -/

/-- WebGPU load operation of a render-pass attachment. -/
inductive LoadOp where
  | Clear
  | Load
  deriving DecidableEq, Repr

structure MeshComponentS where
  enabled : Bool
  meshName : String
  color : Vec4
  deriving DecidableEq, Repr

structure GameObjectS where
  active : Bool
  meshComp : Option MeshComponentS
  deriving DecidableEq, Repr

/-- The skip chain shared by the silhouette and main passes: inactive
objects, objects without an enabled MeshComponent, and objects whose mesh
name is not found by `getMeshByName` are skipped (each via `continue`). -/
def drawnMeshComp (lookup : String → Bool) (g : GameObjectS) :
    Option MeshComponentS :=
  if g.active then
    match g.meshComp with
    | Option.some mc =>
      if mc.enabled && lookup mc.meshName then Option.some mc else Option.none
    | Option.none => Option.none
  else Option.none

/-- One silhouette-pass draw: the running object index and the pseudo-ID
written into `uniforms.color.r`. -/
structure SilhouetteDraw where
  objectIndex : ℕ
  idChannel : ℚ
  deriving DecidableEq, Repr

/-- The silhouette-pass object loop: each drawn object gets
`uniforms.color = vec4(float(objectIndex + 1) / 255.0f, 0, 0, 1)` and
`objectIndex` increments only for drawn objects. -/
def silhouetteDraws (lookup : String → Bool) :
    List GameObjectS → ℕ → List SilhouetteDraw
  | [], _ => []
  | g :: rest, objectIndex =>
    match drawnMeshComp lookup g with
    | Option.some _ =>
      ⟨objectIndex, ((objectIndex : ℚ) + 1) / 255⟩ ::
        silhouetteDraws lookup rest (objectIndex + 1)
    | Option.none => silhouetteDraws lookup rest objectIndex

/-- silhouette.wgsl `fs_main`: R = object ID (from `uniforms.color.r`),
G = 1.0 ("has object"), B = fragment depth, A = 1.0. -/
def silhouetteFragment (idChannel depth : ℚ) : Vec4 :=
  ⟨idChannel, 1, depth, 1⟩

structure SilhouettePassConfig where
  colorLoadOp : LoadOp
  colorClearValue : Vec4
  depthLoadOp : LoadOp
  depthClearValue : ℚ
  stencilLoadOp : LoadOp
  deriving DecidableEq, Repr

/-- The attachment setup of `renderSilhouettePass`: color cleared to
(0,0,0,1), depth cleared to 1, stencil cleared, before any draw. -/
def silhouettePassConfig : SilhouettePassConfig :=
  ⟨LoadOp.Clear, ⟨0, 0, 0, 1⟩, LoadOp.Clear, 1, LoadOp.Clear⟩

/-- One main-pass draw (no per-object index is kept there). -/
structure MainDraw where
  meshName : String
  color : Vec4
  deriving DecidableEq, Repr

/-- The main-pass object loop with the same skip chain. -/
def mainDraws (lookup : String → Bool) : List GameObjectS → List MainDraw
  | [] => []
  | g :: rest =>
    match drawnMeshComp lookup g with
    | Option.some mc => ⟨mc.meshName, mc.color⟩ :: mainDraws lookup rest
    | Option.none => mainDraws lookup rest

/-- Every draw issued by the silhouette pass carries pseudo-ID
`(objectIndex + 1) / 255`. -/
theorem silhouetteDraws_id (lookup : String → Bool) :
    ∀ (objs : List GameObjectS) (i : ℕ) (d : SilhouetteDraw),
      d ∈ silhouetteDraws lookup objs i →
      d.idChannel = ((d.objectIndex : ℚ) + 1) / 255 := by
  intro objs
  induction objs with
  | nil =>
    intro i d hd
    simp [silhouetteDraws] at hd
  | cons g rest ih =>
    intro i d hd
    simp only [silhouetteDraws] at hd
    cases hm : drawnMeshComp lookup g with
    | some mc =>
      rw [hm] at hd
      simp only [List.mem_cons] at hd
      rcases hd with h | h
      · subst h; rfl
      · exact ih (i + 1) d h
    | none =>
      rw [hm] at hd
      exact ih i d hd

/-!
Claim C6 — silhouette-pass pseudo-IDs and target clearing
-/

/-- Counterexample to C6 as stated: the first drawn object (index 0) is written with
ID-channel value `(0 + 1) / 255 = 1/255`, not `0 / 255` as the claim
states. -/
theorem c6_counterexample :
    silhouetteDraws (fun _ => true)
      [⟨true, Option.some ⟨true, "cube", ⟨1, 1, 1, 1⟩⟩⟩] 0
      = [⟨0, 1 / 255⟩] ∧
    (1 / 255 : ℚ) ≠ (0 : ℚ) / 255 := by
  constructor
  · simp [silhouetteDraws, drawnMeshComp]
  · norm_num

/-- C6 (amended): the pseudo-ID written to the ID
color channel of the silhouette target is `(objectIndex + 1) / 255` (so the cleared background value 0
is distinct from every object), the IDs of distinct drawn indices are
distinct, the shader routes that value into the R channel with G = 1 and
depth in B, and the silhouette color target and the depth/stencil buffer
are cleared before any object is drawn.  (No clamping occurs: the target is
`RGBA16Float`, a float format.) -/
theorem c6_silhouette_ids (lookup : String → Bool) (objs : List GameObjectS)
    (d : SilhouetteDraw) (hd : d ∈ silhouetteDraws lookup objs 0) :
    d.idChannel = ((d.objectIndex : ℚ) + 1) / 255 ∧
    (∀ i j : ℕ, ((i : ℚ) + 1) / 255 = ((j : ℚ) + 1) / 255 → i = j) ∧
    (∀ idc depth : ℚ, (silhouetteFragment idc depth).r = idc ∧
      (silhouetteFragment idc depth).g = 1 ∧
      (silhouetteFragment idc depth).b = depth) ∧
    silhouettePassConfig.colorLoadOp = LoadOp.Clear ∧
    silhouettePassConfig.depthLoadOp = LoadOp.Clear ∧
    silhouettePassConfig.stencilLoadOp = LoadOp.Clear := by
  refine ⟨silhouetteDraws_id lookup objs 0 d hd, ?_, ?_, rfl, rfl, rfl⟩
  · intro i j hij
    field_simp at hij
    exact_mod_cast hij
  · intro idc depth
    exact ⟨rfl, rfl, rfl⟩

/-- Witness for C6 (amended): one drawn cube. -/
theorem c6_silhouette_ids_witness :
    (SilhouetteDraw.mk 0 (1 / 255)).idChannel
      = (((SilhouetteDraw.mk 0 (1 / 255)).objectIndex : ℚ) + 1) / 255 ∧
    (∀ i j : ℕ, ((i : ℚ) + 1) / 255 = ((j : ℚ) + 1) / 255 → i = j) ∧
    (∀ idc depth : ℚ, (silhouetteFragment idc depth).r = idc ∧
      (silhouetteFragment idc depth).g = 1 ∧
      (silhouetteFragment idc depth).b = depth) ∧
    silhouettePassConfig.colorLoadOp = LoadOp.Clear ∧
    silhouettePassConfig.depthLoadOp = LoadOp.Clear ∧
    silhouettePassConfig.stencilLoadOp = LoadOp.Clear :=
  c6_silhouette_ids (fun _ => true)
    [⟨true, Option.some ⟨true, "cube", ⟨1, 1, 1, 1⟩⟩⟩]
    ⟨0, 1 / 255⟩
    (by simp [silhouetteDraws, drawnMeshComp])

/-! ## Blit/zoom shader (blit.wgsl `fs_main`, and
`Renderer::renderBlitPass`, part_005:351–375) -/

/-- WGSL `clamp(x, lo, hi) = min(max(x, lo), hi)`. -/
def clampQ (x lo hi : ℚ) : ℚ := min (max x lo) hi

/-- The `ZoomParams` uniform of blit.wgsl. -/
structure ZoomParams where
  zoom : ℚ
  centerX : ℚ
  centerY : ℚ
  deriving DecidableEq, Repr

/-- The UV remap of blit.wgsl `fs_main`:
`invZoom = 1/zoom`, `uvOffset = center - (invZoom, invZoom) * 0.5`,
`zoomedUV = clamp(uv * (invZoom, invZoom) + uvOffset, 0, 1)`. -/
def zoomedUV (p : ZoomParams) (uv : ℚ × ℚ) : ℚ × ℚ :=
  let invZoom := 1 / p.zoom
  let offX := p.centerX - invZoom * (1 / 2)
  let offY := p.centerY - invZoom * (1 / 2)
  (clampQ (uv.1 * invZoom + offX) 0 1, clampQ (uv.2 * invZoom + offY) 0 1)

/-- The f32→i32 conversion in `vec2<i32>(...)` truncates toward zero
(which on the clamped, non-negative UVs coincides with floor). -/
def truncQ (x : ℚ) : ℤ := x.num / (x.den : ℤ)

/-- The conversion `pixelCoord = vec2<i32>(zoomedUV * texSizeF)`. -/
def pixelCoord (texW texH : ℕ) (uv : ℚ × ℚ) : ℤ × ℤ :=
  (truncQ (uv.1 * texW), truncQ (uv.2 * texH))

/-- blit.wgsl `fs_main`: remap the UV, convert to a pixel coordinate and
read that single texel with `textureLoad` (no filtering: exactly one texel
is fetched, never a weighted blend). -/
def blitFragment (tex : ℤ × ℤ → Vec4) (texW texH : ℕ) (p : ZoomParams)
    (uv : ℚ × ℚ) : Vec4 :=
  tex (pixelCoord texW texH (zoomedUV p uv))

/-- Modelled from the wording of the spec, for comparison: the input UV remapped
affinely onto the window `[center - (1/z)/2, center + (1/z)/2]`, clamped
componentwise to `[0,1]`. -/
def specWindowUV (p : ZoomParams) (uv : ℚ × ℚ) : ℚ × ℚ :=
  let loX := p.centerX - (1 / p.zoom) / 2
  let hiX := p.centerX + (1 / p.zoom) / 2
  let loY := p.centerY - (1 / p.zoom) / 2
  let hiY := p.centerY + (1 / p.zoom) / 2
  (clampQ (loX + uv.1 * (hiX - loX)) 0 1, clampQ (loY + uv.2 * (hiY - loY)) 0 1)

/-!
Claim C7 — blit zoom window and point sampling
-/

/-- C7: the sampled UV is the input UV remapped into the window
`[center - (1/z)/2, center + (1/z)/2]` clamped componentwise to `[0,1]`;
the texel is fetched unfiltered at the single pre-scaled pixel coordinate;
and zoom 2.0 centered at `(1/2, 1/2)` maps the unit UV square affinely onto
`[1/4, 3/4]²` — the central 25% of the pre-zoom frame by area. -/
theorem c7_blit_zoom_window (p : ZoomParams) (uv : ℚ × ℚ)
    (h0 : 0 ≤ uv.1) (h1 : uv.1 ≤ 1) (h2 : 0 ≤ uv.2) (h3 : uv.2 ≤ 1) :
    (∀ (tex : ℤ × ℤ → Vec4) (texW texH : ℕ),
      blitFragment tex texW texH p uv
        = tex (pixelCoord texW texH (zoomedUV p uv))) ∧
    zoomedUV p uv = specWindowUV p uv ∧
    (p.zoom = 2 → p.centerX = 1 / 2 → p.centerY = 1 / 2 →
      zoomedUV p uv = (1 / 4 + uv.1 / 2, 1 / 4 + uv.2 / 2) ∧
      1 / 4 ≤ (zoomedUV p uv).1 ∧ (zoomedUV p uv).1 ≤ 3 / 4 ∧
      1 / 4 ≤ (zoomedUV p uv).2 ∧ (zoomedUV p uv).2 ≤ 3 / 4) := by
  refine ⟨fun tex texW texH => rfl, ?_, ?_⟩
  · unfold zoomedUV specWindowUV
    refine Prod.ext ?_ ?_
    · show clampQ (uv.1 * (1 / p.zoom) + (p.centerX - (1 / p.zoom) * (1 / 2))) 0 1
        = clampQ ((p.centerX - (1 / p.zoom) / 2)
            + uv.1 * ((p.centerX + (1 / p.zoom) / 2) - (p.centerX - (1 / p.zoom) / 2))) 0 1
      congr 1
      ring
    · show clampQ (uv.2 * (1 / p.zoom) + (p.centerY - (1 / p.zoom) * (1 / 2))) 0 1
        = clampQ ((p.centerY - (1 / p.zoom) / 2)
            + uv.2 * ((p.centerY + (1 / p.zoom) / 2) - (p.centerY - (1 / p.zoom) / 2))) 0 1
      congr 1
      ring
  · intro hz hcx hcy
    have hx : uv.1 * (1 / p.zoom) + (p.centerX - (1 / p.zoom) * (1 / 2))
        = 1 / 4 + uv.1 / 2 := by rw [hz, hcx]; ring
    have hy : uv.2 * (1 / p.zoom) + (p.centerY - (1 / p.zoom) * (1 / 2))
        = 1 / 4 + uv.2 / 2 := by rw [hz, hcy]; ring
    have hxin : clampQ (1 / 4 + uv.1 / 2) 0 1 = 1 / 4 + uv.1 / 2 := by
      unfold clampQ
      rw [max_eq_left (by linarith), min_eq_left (by linarith)]
    have hyin : clampQ (1 / 4 + uv.2 / 2) 0 1 = 1 / 4 + uv.2 / 2 := by
      unfold clampQ
      rw [max_eq_left (by linarith), min_eq_left (by linarith)]
    have hzuv : zoomedUV p uv = (1 / 4 + uv.1 / 2, 1 / 4 + uv.2 / 2) := by
      unfold zoomedUV
      rw [show (1:ℚ) / p.zoom = 1 / 2 by rw [hz]] at *
      simp only [hx, hy] at *
      exact Prod.ext (by simpa using hxin) (by simpa using hyin)
    refine ⟨hzuv, ?_, ?_, ?_, ?_⟩ <;> rw [hzuv] <;> simp <;> linarith

/-- Witness for C7 at `uv = (0, 0)` with the zoom-2 parameters. -/
theorem c7_blit_zoom_window_witness :
    (∀ (tex : ℤ × ℤ → Vec4) (texW texH : ℕ),
      blitFragment tex texW texH ⟨2, 1 / 2, 1 / 2⟩ (0, 0)
        = tex (pixelCoord texW texH (zoomedUV ⟨2, 1 / 2, 1 / 2⟩ (0, 0)))) ∧
    zoomedUV ⟨2, 1 / 2, 1 / 2⟩ (0, 0) = specWindowUV ⟨2, 1 / 2, 1 / 2⟩ (0, 0) ∧
    ((2 : ℚ) = 2 → (1 / 2 : ℚ) = 1 / 2 → (1 / 2 : ℚ) = 1 / 2 →
      zoomedUV ⟨2, 1 / 2, 1 / 2⟩ (0, 0)
        = (1 / 4 + (0 : ℚ) / 2, 1 / 4 + (0 : ℚ) / 2) ∧
      1 / 4 ≤ (zoomedUV ⟨2, 1 / 2, 1 / 2⟩ (0, 0)).1 ∧
      (zoomedUV ⟨2, 1 / 2, 1 / 2⟩ (0, 0)).1 ≤ 3 / 4 ∧
      1 / 4 ≤ (zoomedUV ⟨2, 1 / 2, 1 / 2⟩ (0, 0)).2 ∧
      (zoomedUV ⟨2, 1 / 2, 1 / 2⟩ (0, 0)).2 ≤ 3 / 4) :=
  c7_blit_zoom_window ⟨2, 1 / 2, 1 / 2⟩ (0, 0)
    (le_refl 0) (by norm_num) (le_refl 0) (by norm_num)

/-! ## Outline composition (outline_compose.wgsl `fs_main`, and
`Renderer::renderOutlineComposePass` / `initOutlineComposePipeline`,
part_005:298–313 and 791–864) -/

def outlineTexW : ℚ := 1280

def outlineTexH : ℚ := 720

/-- The shader constant `outlineWidth = 0.7`. -/
def outlineWidth : ℚ := 7 / 10

/-- The shader constant `depthThreshold = 0.003`. -/
def depthThreshold : ℚ := 3 / 1000

/-- The near-black opaque color returned for edge pixels. -/
def outlineColor : Vec4 := ⟨3 / 1000, 5 / 1000, 1 / 100, 1⟩

/-- The fully transparent color returned for non-edge pixels. -/
def transparentColor : Vec4 := ⟨0, 0, 0, 0⟩

/-- The neighbor UV of angular tap `i`:
`uv + (cos θᵢ, sin θᵢ) * pixelSize * outlineWidth` with
`pixelSize = 1 / texSize`.  The `(cos θᵢ, sin θᵢ)` direction is irrational
for most of the 8 angles `θᵢ = i · 6.28318/8`, so the direction table
`dirs` is a parameter of the model; the fixed radius — one texel scaled by
the `outlineWidth` constant — is kept exactly. -/
def neighborUV (dirs : Fin 8 → ℚ × ℚ) (uv : ℚ × ℚ) (i : Fin 8) : ℚ × ℚ :=
  (uv.1 + (dirs i).1 * (1 / outlineTexW) * outlineWidth,
   uv.2 + (dirs i).2 * (1 / outlineTexH) * outlineWidth)

/-- The sampling loop of outline_compose.wgsl `fs_main`: a pixel is an edge
iff some of the 8 neighbor taps has a "has-object" channel (G) differing
from the center value by more than 0.5 or a depth channel (B) differing by more
than `depthThreshold` (the loop breaks at the first such neighbor, which
equals the disjunction over all 8). -/
def isEdgeAt (sil : ℚ × ℚ → Vec4) (dirs : Fin 8 → ℚ × ℚ)
    (uv : ℚ × ℚ) : Bool :=
  let center := sil uv
  (List.finRange 8).any fun i =>
    let neighbor := sil (neighborUV dirs uv i)
    decide (1 / 2 < |center.g - neighbor.g|) ||
      decide (depthThreshold < |center.b - neighbor.b|)

/-- outline_compose.wgsl `fs_main` output. -/
def outlineFragment (sil : ℚ × ℚ → Vec4) (dirs : Fin 8 → ℚ × ℚ)
    (uv : ℚ × ℚ) : Vec4 :=
  if isEdgeAt sil dirs uv then outlineColor else transparentColor

/-- The blend state of the outline-compose pipeline:
color `src*srcAlpha + dst*(1 - srcAlpha)`, alpha `src*1 + dst*0`. -/
def outlineBlend (src dst : Vec4) : Vec4 :=
  ⟨src.r * src.a + dst.r * (1 - src.a),
   src.g * src.a + dst.g * (1 - src.a),
   src.b * src.a + dst.b * (1 - src.a),
   src.a * 1 + dst.a * 0⟩

/-- The pass `renderOutlineComposePass` attaches the main color target with
`LoadOp::Load` (compositing onto the output of the main pass, not clearing). -/
def outlineComposeColorLoadOp : LoadOp := LoadOp.Load

/-!
Claim C8 — outline edge detection and composition
-/

/-- C8: a pixel is flagged as edge iff at least one of the 8
angularly-distributed neighbor taps (at the fixed one-texel-times-0.7
radius) has a has-object channel differing from the center value by more than
0.5 or a depth channel differing by more than 0.003; edge pixels output the
near-black opaque outline color, which the configured blend writes over the
destination; non-edge pixels output fully transparent, which the blend
leaves the destination color channels unchanged by; and the pass loads
rather than clears the main color target. -/
theorem c8_outline_edges (sil : ℚ × ℚ → Vec4) (dirs : Fin 8 → ℚ × ℚ)
    (uv : ℚ × ℚ) :
    (isEdgeAt sil dirs uv = true ↔
      ∃ i : Fin 8,
        1 / 2 < |(sil uv).g - (sil (neighborUV dirs uv i)).g| ∨
        depthThreshold < |(sil uv).b - (sil (neighborUV dirs uv i)).b|) ∧
    (isEdgeAt sil dirs uv = true →
      outlineFragment sil dirs uv = outlineColor) ∧
    (isEdgeAt sil dirs uv = false →
      outlineFragment sil dirs uv = transparentColor) ∧
    (∀ dst : Vec4, outlineBlend transparentColor dst
      = ⟨dst.r, dst.g, dst.b, 0⟩) ∧
    (∀ dst : Vec4, outlineBlend outlineColor dst = outlineColor) ∧
    outlineComposeColorLoadOp = LoadOp.Load := by
  refine ⟨?_, ?_, ?_, ?_, ?_, rfl⟩
  · unfold isEdgeAt
    rw [List.any_eq_true]
    constructor
    · rintro ⟨i, _, hp⟩
      rw [Bool.or_eq_true, decide_eq_true_eq, decide_eq_true_eq] at hp
      exact ⟨i, hp⟩
    · rintro ⟨i, hp⟩
      refine ⟨i, List.mem_finRange i, ?_⟩
      rw [Bool.or_eq_true, decide_eq_true_eq, decide_eq_true_eq]
      exact hp
  · intro h
    unfold outlineFragment
    rw [if_pos h]
  · intro h
    unfold outlineFragment
    rw [if_neg (by rw [h]; exact Bool.false_ne_true)]
  · intro dst
    unfold outlineBlend transparentColor
    simp only [Vec4.mk.injEq]
    refine ⟨by ring, by ring, by ring, by ring⟩
  · intro dst
    unfold outlineBlend outlineColor
    simp only [Vec4.mk.injEq]
    refine ⟨by ring, by ring, by ring, by ring⟩

/-- Witness for C8: a silhouette texture with a sharp vertical
object/background boundary at `u = 1/2` and the rightward tap. -/
theorem c8_outline_edges_witness :
    (isEdgeAt (fun q => if q.1 ≤ 1 / 2 then ⟨1 / 255, 1, 0, 1⟩ else ⟨0, 0, 1, 1⟩)
        (fun _ => (1, 0)) (1 / 2, 1 / 2) = true ↔
      ∃ i : Fin 8,
        1 / 2 < |((fun (q : ℚ × ℚ) =>
            if q.1 ≤ 1 / 2 then (⟨1 / 255, 1, 0, 1⟩ : Vec4) else ⟨0, 0, 1, 1⟩)
              (1 / 2, 1 / 2)).g -
          ((fun (q : ℚ × ℚ) =>
            if q.1 ≤ 1 / 2 then (⟨1 / 255, 1, 0, 1⟩ : Vec4) else ⟨0, 0, 1, 1⟩)
              (neighborUV (fun _ => (1, 0)) (1 / 2, 1 / 2) i)).g| ∨
        depthThreshold < |((fun (q : ℚ × ℚ) =>
            if q.1 ≤ 1 / 2 then (⟨1 / 255, 1, 0, 1⟩ : Vec4) else ⟨0, 0, 1, 1⟩)
              (1 / 2, 1 / 2)).b -
          ((fun (q : ℚ × ℚ) =>
            if q.1 ≤ 1 / 2 then (⟨1 / 255, 1, 0, 1⟩ : Vec4) else ⟨0, 0, 1, 1⟩)
              (neighborUV (fun _ => (1, 0)) (1 / 2, 1 / 2) i)).b|) ∧
    (isEdgeAt (fun q => if q.1 ≤ 1 / 2 then ⟨1 / 255, 1, 0, 1⟩ else ⟨0, 0, 1, 1⟩)
        (fun _ => (1, 0)) (1 / 2, 1 / 2) = true →
      outlineFragment
        (fun q => if q.1 ≤ 1 / 2 then ⟨1 / 255, 1, 0, 1⟩ else ⟨0, 0, 1, 1⟩)
        (fun _ => (1, 0)) (1 / 2, 1 / 2) = outlineColor) ∧
    (isEdgeAt (fun q => if q.1 ≤ 1 / 2 then ⟨1 / 255, 1, 0, 1⟩ else ⟨0, 0, 1, 1⟩)
        (fun _ => (1, 0)) (1 / 2, 1 / 2) = false →
      outlineFragment
        (fun q => if q.1 ≤ 1 / 2 then ⟨1 / 255, 1, 0, 1⟩ else ⟨0, 0, 1, 1⟩)
        (fun _ => (1, 0)) (1 / 2, 1 / 2) = transparentColor) ∧
    (∀ dst : Vec4, outlineBlend transparentColor dst
      = ⟨dst.r, dst.g, dst.b, 0⟩) ∧
    (∀ dst : Vec4, outlineBlend outlineColor dst = outlineColor) ∧
    outlineComposeColorLoadOp = LoadOp.Load :=
  c8_outline_edges
    (fun q => if q.1 ≤ 1 / 2 then ⟨1 / 255, 1, 0, 1⟩ else ⟨0, 0, 1, 1⟩)
    (fun _ => (1, 0)) (1 / 2, 1 / 2)

/-! ## Frame-time failure semantics
(`Renderer::renderBlitPass` part_005:351–375 — early return when the swap
chain texture cannot be acquired; missing-mesh skips in the object loops) -/

/-- An acquired swap-chain texture view. -/
structure SwapViewS where
  viewId : ℕ
  deriving DecidableEq, Repr

/-- A submitted blit draw: the full-screen quad (6 vertices) onto the
acquired view. -/
structure BlitDraw where
  targetView : SwapViewS
  vertexCount : ℕ
  deriving DecidableEq, Repr

/-- Model of `renderBlitPass`: if `getCurrentTextureView()` yields nothing, log and
return without encoding any draw; otherwise draw the 6-vertex quad. -/
def renderBlitPass (swapView : Option SwapViewS) : Option BlitDraw :=
  match swapView with
  | Option.none => Option.none
  | Option.some v => Option.some ⟨v, 6⟩

/-- Inserting an object whose mesh lookup fails changes nothing in the
draw list of the silhouette pass (including the index numbering of later
objects). -/
theorem silhouetteDraws_skip (lookup : String → Bool) (bad : GameObjectS)
    (hbad : drawnMeshComp lookup bad = Option.none) :
    ∀ (xs ys : List GameObjectS) (i : ℕ),
      silhouetteDraws lookup (xs ++ bad :: ys) i
        = silhouetteDraws lookup (xs ++ ys) i := by
  intro xs
  induction xs with
  | nil =>
    intro ys i
    simp only [List.nil_append, silhouetteDraws, hbad]
  | cons g rest ih =>
    intro ys i
    cases hm : drawnMeshComp lookup g with
    | some mc =>
      simp only [List.cons_append, silhouetteDraws, hm]
      exact congrArg (List.cons ⟨i, ((i : ℚ) + 1) / 255⟩) (ih ys (i + 1))
    | none =>
      simp only [List.cons_append, silhouetteDraws, hm]
      exact ih ys i

/-- The same skip fact for the main pass. -/
theorem mainDraws_skip (lookup : String → Bool) (bad : GameObjectS)
    (hbad : drawnMeshComp lookup bad = Option.none) :
    ∀ xs ys : List GameObjectS,
      mainDraws lookup (xs ++ bad :: ys) = mainDraws lookup (xs ++ ys) := by
  intro xs
  induction xs with
  | nil =>
    intro ys
    simp only [List.nil_append, mainDraws, hbad]
  | cons g rest ih =>
    intro ys
    cases hm : drawnMeshComp lookup g with
    | some mc =>
      simp only [List.cons_append, mainDraws, hm]
      exact congrArg (List.cons ⟨mc.meshName, mc.color⟩) (ih ys)
    | none =>
      simp only [List.cons_append, mainDraws, hm]
      exact ih ys

/-!
Claim C9 — dropped frames and silently skipped objects
-/

/-- C9: when the swap-chain view cannot be acquired the blit pass
returns without drawing (the frame is dropped, not fatal — the pass is a
total function); and in the silhouette and main passes, an active object
with an enabled MeshComponent whose mesh name is not found contributes no
draw while the draws of every other object — and the silhouette index
numbering — are exactly as if the object were absent. -/
theorem c9_frame_failure_semantics (lookup : String → Bool)
    (bad : GameObjectS) (mc : MeshComponentS)
    (hactive : bad.active = true) (hmc : bad.meshComp = Option.some mc)
    (henabled : mc.enabled = true) (hmiss : lookup mc.meshName = false) :
    renderBlitPass Option.none = Option.none ∧
    (∀ v : SwapViewS, renderBlitPass (Option.some v) = Option.some ⟨v, 6⟩) ∧
    (∀ (xs ys : List GameObjectS) (i : ℕ),
      silhouetteDraws lookup (xs ++ bad :: ys) i
        = silhouetteDraws lookup (xs ++ ys) i) ∧
    (∀ xs ys : List GameObjectS,
      mainDraws lookup (xs ++ bad :: ys) = mainDraws lookup (xs ++ ys)) := by
  have hbad : drawnMeshComp lookup bad = Option.none := by
    unfold drawnMeshComp
    rw [hactive, hmc]
    simp [henabled, hmiss]
  exact ⟨rfl, fun v => rfl, silhouetteDraws_skip lookup bad hbad,
    mainDraws_skip lookup bad hbad⟩

/-- Witness for C9: an active object referencing mesh "missing" under a
mesh table that contains nothing. -/
theorem c9_frame_failure_semantics_witness :
    renderBlitPass Option.none = Option.none ∧
    (∀ v : SwapViewS, renderBlitPass (Option.some v) = Option.some ⟨v, 6⟩) ∧
    (∀ (xs ys : List GameObjectS) (i : ℕ),
      silhouetteDraws (fun _ => false)
          (xs ++ (⟨true, Option.some ⟨true, "missing", ⟨1, 1, 1, 1⟩⟩⟩ : GameObjectS) :: ys) i
        = silhouetteDraws (fun _ => false) (xs ++ ys) i) ∧
    (∀ xs ys : List GameObjectS,
      mainDraws (fun _ => false)
          (xs ++ (⟨true, Option.some ⟨true, "missing", ⟨1, 1, 1, 1⟩⟩⟩ : GameObjectS) :: ys)
        = mainDraws (fun _ => false) (xs ++ ys)) :=
  c9_frame_failure_semantics (fun _ => false)
    ⟨true, Option.some ⟨true, "missing", ⟨1, 1, 1, 1⟩⟩⟩
    ⟨true, "missing", ⟨1, 1, 1, 1⟩⟩ rfl rfl rfl rfl

/-! ## Raycast layer mask
(`CollisionSystem::raycast`, collision_system.cpp:721–767, and
`CollisionSystem::checkGrounded`, collision_system.cpp:769–790) -/

def Vec3.add (a b : Vec3) : Vec3 := ⟨a.x + b.x, a.y + b.y, a.z + b.z⟩

def Vec3.smul (a : Vec3) (t : ℚ) : Vec3 := ⟨a.x * t, a.y * t, a.z * t⟩

/-- The `RayCastResult` fields of Jolt that the adapter consumes. -/
structure RayCastResultS where
  fraction : ℚ
  bodyID : ℕ
  deriving DecidableEq, Repr

structure RaycastHitS where
  hit : Bool
  point : Vec3
  normal : Vec3
  distance : ℚ
  objectID : Option ℕ
  deriving DecidableEq, Repr

/-- Model of `CollisionSystem::raycast`.  External collaborators are parameters:
`normalize` models `glm::normalize` (irrational in general), `castRay`
models the Jolt narrow-phase `CastRay` on the ray
`(origin, normalizedDir * maxDistance)`, `surfaceNormal` models the body
lock plus `GetWorldSpaceSurfaceNormal` at `GetPointOnRay(fraction)`
(`Option.none` when the lock fails, leaving the default zero normal), and
`bodyToGameObject` the body-id → GameObject map.  The C++ body discards the
`layerMask` argument (`(void)layerMask; // TODO Implement layer
filtering`), and so does this embedding. -/
def raycast (normalize : Vec3 → Vec3)
    (castRay : Vec3 → Vec3 → Option RayCastResultS)
    (surfaceNormal : ℕ → Vec3 → Option Vec3)
    (bodyToGameObject : ℕ → Option ℕ)
    (origin direction : Vec3) (maxDistance : ℚ) (layerMask : ℕ) :
    RaycastHitS :=
  let normalizedDir := normalize direction
  let rayDirection := normalizedDir.smul maxDistance
  match castRay origin rayDirection with
  | Option.none => ⟨false, ⟨0, 0, 0⟩, ⟨0, 0, 0⟩, 0, Option.none⟩
  | Option.some result =>
    let dist := result.fraction * maxDistance
    let normal :=
      match surfaceNormal result.bodyID
          (origin.add (rayDirection.smul result.fraction)) with
      | Option.some n => n
      | Option.none => ⟨0, 0, 0⟩
    ⟨true, origin.add (normalizedDir.smul dist), normal, dist,
      bodyToGameObject result.bodyID⟩

/-- The raycast issued by `CollisionSystem::checkGrounded`: origin
`object->position + collider->center`, direction `(0, 0, -1)`, restricted
to `CollisionLayer::Ground`. -/
def checkGroundedQuery (normalize : Vec3 → Vec3)
    (castRay : Vec3 → Vec3 → Option RayCastResultS)
    (surfaceNormal : ℕ → Vec3 → Option Vec3)
    (bodyToGameObject : ℕ → Option ℕ)
    (objectPosition colliderCenter : Vec3) (distance : ℚ) : RaycastHitS :=
  raycast normalize castRay surfaceNormal bodyToGameObject
    (objectPosition.add colliderCenter) ⟨0, 0, -1⟩ distance
    CollisionLayer.Ground

/-!
Claim C10 — the raycast layer mask is ignored
-/

/-- C10: `CollisionSystem::raycast` returns the same hit for any two
values of the `layerMask` argument — the mask is discarded, so raycasts hit
bodies on every collision layer; in particular the `checkGrounded` raycast
restricted to `CollisionLayer::Ground` coincides with the unrestricted
(`CollisionLayer::All`) raycast. -/
theorem c10_raycast_ignores_mask (normalize : Vec3 → Vec3)
    (castRay : Vec3 → Vec3 → Option RayCastResultS)
    (surfaceNormal : ℕ → Vec3 → Option Vec3)
    (bodyToGameObject : ℕ → Option ℕ) :
    (∀ (origin direction : Vec3) (maxDistance : ℚ) (mask1 mask2 : ℕ),
      raycast normalize castRay surfaceNormal bodyToGameObject
          origin direction maxDistance mask1
        = raycast normalize castRay surfaceNormal bodyToGameObject
          origin direction maxDistance mask2) ∧
    (∀ (objectPosition colliderCenter : Vec3) (distance : ℚ),
      checkGroundedQuery normalize castRay surfaceNormal bodyToGameObject
          objectPosition colliderCenter distance
        = raycast normalize castRay surfaceNormal bodyToGameObject
          (objectPosition.add colliderCenter) ⟨0, 0, -1⟩ distance
          CollisionLayer.All) :=
  ⟨fun _ _ _ _ _ => rfl, fun _ _ _ => rfl⟩

end Froggi
